import Mathlib

/-!
Shallow embedding of the field/point canonicalization codec of the
`ark-serde-compat` crate (circom-helpers repository): the strict decimal
field-element parser `parse_field_str_inner`, the projective point
decoders `g1_from_strings_projective` / `g2_from_strings_projective`,
the visitor-level decoders for G1 points and target-group elements, and
the human-readable serializers.  A field element is represented by its
canonical representative in `[0, p)` (a `Nat`); a wire string by a
`List Char`.  Operations supplied by the external arithmetic library
(field inversion, extension-field multiplication, the curve-equation
test and the subgroup test) are capability parameters, exactly as the
Rust code is generic over `PrimeField` / `SWCurveConfig`.
-/

/-- The distinct `SerdeCompatError` static message strings of the crate,
one constructor per message. -/
inductive SerdeErr where
  | leadingPlusSign
  | negativeRejected
  | invalidDigits
  | invalidData
  | nonCanonicalZero
  | leadingZero
  | negativeLeadingZero
  | outOfRange
  | notConCurveG1
  | notInCorrectSubgroupG1
  | notOnCurveG2
  | notOnCorrectSubgroupG2
  | expectedQuadExt
  | expectedCubicExt
  deriving DecidableEq, Repr

/-- Errors produced at the serde visitor layer (`D::Error` customs and
`invalid_length`), wrapping codec errors. -/
inductive DeError where
  | custom (e : SerdeErr)
  | missingG1X
  | missingG1Y
  | missingG1Z
  | invalidLength (n : Nat)
  | gtMissingElement
  | gtNeedThreeForCubic
  deriving DecidableEq, Repr

/-- `str::starts_with(c)` for a single character. -/
def startsWithChar (c : Char) : List Char → Bool
  | [] => false
  | x :: _ => x == c

/-- `str::starts_with("-0")`. -/
def startsWithNegZero (v : List Char) : Bool :=
  startsWithChar '-' v && startsWithChar '0' v.tail

/-- `v.strip_prefix('-').unwrap_or(v)`. -/
def stripNeg (v : List Char) : List Char :=
  if startsWithChar '-' v then v.tail else v

/-- Numeric value of an ASCII digit character. -/
def digitVal (c : Char) : Nat := c.toNat - 48

/-- Value of a big-endian ASCII digit string. -/
def digitsToNat (l : List Char) : Nat :=
  l.foldl (fun a c => a * 10 + digitVal c) 0

/-- `num_bigint::BigInt::from_str` (radix 10): an optional sign followed
by a nonempty run of ASCII digits; leading zeros are accepted and `-0`
normalizes to zero. -/
def bigIntFromStr (v : List Char) : Option Int :=
  if startsWithChar '-' v then
    if v.tail ≠ [] ∧ v.tail.all Char.isDigit then
      some (-(digitsToNat v.tail : Int))
    else none
  else if startsWithChar '+' v then
    if v.tail ≠ [] ∧ v.tail.all Char.isDigit then
      some ((digitsToNat v.tail : Int))
    else none
  else
    if v ≠ [] ∧ v.all Char.isDigit then
      some ((digitsToNat v : Int))
    else none

/-- The strict canonical decimal parser `parse_field_str_inner` of
`ark-serde-compat`, for the prime field with modulus `p`.  `unsigned`
is the `UNSIGNED` const generic.  Returns the canonical representative
of the decoded field element. -/
def parse_field_str_inner (unsigned : Bool) (p : Nat) (v : List Char) :
    Except SerdeErr Nat :=
  if startsWithChar '+' v = true then .error .leadingPlusSign
  else if unsigned = true ∧ startsWithChar '-' v = true then .error .negativeRejected
  else if (if unsigned then v.any (fun c => !c.isDigit)
           else (stripNeg v).any (fun c => !c.isDigit)) = true then
    .error .invalidDigits
  else
    match bigIntFromStr v with
    | none => .error .invalidData
    | some number =>
      if number = 0 ∧ v ≠ ['0'] then .error .nonCanonicalZero
      else if startsWithChar '0' v = true ∧ number ≠ 0 then .error .leadingZero
      else if unsigned = false ∧ number < 0 then
        if number ≠ 0 ∧ startsWithNegZero v = true then .error .negativeLeadingZero
        else if number + (p : Int) < 0 then .error .outOfRange
        else .ok (number + (p : Int)).toNat
      else if unsigned = true ∧ number < 0 then .error .negativeRejected
      else if (p : Int) ≤ number then .error .outOfRange
      else .ok number.toNat

/-- `parse_field_str_inner_unsigned`. -/
def parse_field_str_inner_unsigned (p : Nat) (v : List Char) :
    Except SerdeErr Nat :=
  parse_field_str_inner true p v

/-- ASCII digit character of a single decimal digit. -/
def digitChar (d : Nat) : Char := Char.ofNat (48 + d)

/-- Fueled big-endian decimal printer (the fuel is always sufficient at
the call site in `natRepr`). -/
def natDecimalGo : Nat → Nat → List Char → List Char
  | 0, _, acc => acc
  | fuel + 1, n, acc =>
    if n < 10 then digitChar n :: acc
    else natDecimalGo fuel (n / 10) (digitChar (n % 10) :: acc)

/-- Canonical decimal string of a natural number: the human-readable
encoding emitted for a field element by `serialize_f` (arkworks
`Display`, no sign, no leading zeros, `"0"` for zero). -/
def natRepr (n : Nat) : List Char := natDecimalGo (n + 1) n []

/-- Human-readable branch of `serialize_f`: the canonical decimal string
of the representative in `[0, p)`. -/
def serialize_f (f : Nat) : List Char := natRepr f

/-- Capability parameters for a G1-style short-Weierstrass curve over a
prime field: the modulus, and the external arithmetic library's field
inversion, curve-equation test and subgroup test. -/
structure G1Config where
  p : Nat
  inv : Nat → Nat
  isOnCurve : Nat → Nat → Bool
  inSubgroup : Nat → Nat → Bool

/-- An affine G1 point: a coordinate pair or the infinity sentinel. -/
inductive G1Affine where
  | inf
  | point (x y : Nat)
  deriving DecidableEq, Repr

/-- arkworks `Projective::into_affine` for short-Weierstrass curves
(Jacobian coordinates): infinity when `z = 0`, the coordinates as given
when `z = 1`, otherwise `x / z ^ 2` and `y / z ^ 3`. -/
def intoAffineG1 (c : G1Config) (x y z : Nat) : G1Affine :=
  if z = 0 then .inf
  else if z = 1 then .point x y
  else
    let zinv := c.inv z
    let zinv2 := zinv * zinv % c.p
    .point (x * zinv2 % c.p) (y * (zinv2 * zinv % c.p) % c.p)

/-- `g1_from_strings_projective::<CHECK>`: parse the three coordinate
strings unsigned, normalize to affine, accept infinity unconditionally,
and in checked mode run the curve-equation test and then the subgroup
test. -/
def g1_from_strings_projective (check : Bool) (c : G1Config)
    (x y z : List Char) : Except SerdeErr G1Affine :=
  match parse_field_str_inner_unsigned c.p x with
  | .error e => .error e
  | .ok fx =>
    match parse_field_str_inner_unsigned c.p y with
    | .error e => .error e
    | .ok fy =>
      match parse_field_str_inner_unsigned c.p z with
      | .error e => .error e
      | .ok fz =>
        match intoAffineG1 c fx fy fz with
        | .inf => .ok .inf
        | .point px py =>
          if check = true ∧ c.isOnCurve px py = false then
            .error .notConCurveG1
          else if check = true ∧ c.inSubgroup px py = false then
            .error .notInCorrectSubgroupG1
          else .ok (.point px py)

/-- `G1Visitor::visit_seq`: expects exactly three coordinate strings;
a missing coordinate and a present fourth element are errors. -/
def g1_visit_seq (check : Bool) (c : G1Config) :
    List (List Char) → Except DeError G1Affine
  | [] => .error .missingG1X
  | [_] => .error .missingG1Y
  | [_, _] => .error .missingG1Z
  | [x, y, z] =>
    match g1_from_strings_projective check c x y z with
    | .error e => .error (.custom e)
    | .ok pt => .ok pt
  | _ :: _ :: _ :: _ :: _ => .error (.invalidLength 4)

/-- `g1_to_strings_projective`: `[x, y, "1"]` for a finite point and the
fixed sentinel `["0", "1", "0"]` for infinity. -/
def g1_to_strings_projective : G1Affine → List (List Char)
  | .point x y => [natRepr x, natRepr y, ['1']]
  | .inf => [['0'], ['1'], ['0']]

/-- A quadratic-extension element as a pair of canonical representatives. -/
abbrev Fq2 := Nat × Nat

/-- A cubic-extension element over `Fq2`. -/
abbrev Fq6 := Fq2 × Fq2 × Fq2

/-- A target-group element: the quadratic tower over `Fq6`. -/
abbrev Fq12 := Fq6 × Fq6

/-- Capability parameters for a G2-style curve over a quadratic
extension field. -/
structure G2Config where
  p : Nat
  invQ : Fq2 → Fq2
  mulQ : Fq2 → Fq2 → Fq2
  isOnCurve : Fq2 → Fq2 → Bool
  inSubgroup : Fq2 → Fq2 → Bool

/-- An affine G2 point. -/
inductive G2Affine where
  | inf
  | point (x y : Fq2)
  deriving DecidableEq, Repr

/-- arkworks `Projective::into_affine` over the quadratic extension:
infinity when `z` is the zero element `(0, 0)`, the coordinates as
given when `z` is the one element `(1, 0)`, otherwise normalized by the
inverse of `z`. -/
def intoAffineG2 (c : G2Config) (x y z : Fq2) : G2Affine :=
  if z = (0, 0) then .inf
  else if z = (1, 0) then .point x y
  else
    let zinv := c.invQ z
    let zinv2 := c.mulQ zinv zinv
    .point (c.mulQ x zinv2) (c.mulQ y (c.mulQ zinv2 zinv))

/-- `g2_from_strings_projective::<CHECK>`: parse the six coordinate
component strings unsigned, normalize to affine, accept infinity
unconditionally, and in checked mode run the curve and subgroup tests. -/
def g2_from_strings_projective (check : Bool) (c : G2Config)
    (x0 x1 y0 y1 z0 z1 : List Char) : Except SerdeErr G2Affine :=
  match parse_field_str_inner_unsigned c.p x0 with
  | .error e => .error e
  | .ok a0 =>
    match parse_field_str_inner_unsigned c.p x1 with
    | .error e => .error e
    | .ok a1 =>
      match parse_field_str_inner_unsigned c.p y0 with
      | .error e => .error e
      | .ok b0 =>
        match parse_field_str_inner_unsigned c.p y1 with
        | .error e => .error e
        | .ok b1 =>
          match parse_field_str_inner_unsigned c.p z0 with
          | .error e => .error e
          | .ok d0 =>
            match parse_field_str_inner_unsigned c.p z1 with
            | .error e => .error e
            | .ok d1 =>
              match intoAffineG2 c (a0, a1) (b0, b1) (d0, d1) with
              | .inf => .ok .inf
              | .point px py =>
                if check = true ∧ c.isOnCurve px py = false then
                  .error .notOnCurveG2
                else if check = true ∧ c.inSubgroup px py = false then
                  .error .notOnCorrectSubgroupG2
                else .ok (.point px py)

/-- `quadratic_extension_field_from_vec`: exactly two component strings,
each parsed unsigned. -/
def quadratic_extension_field_from_vec (p : Nat) :
    List (List Char) → Except SerdeErr Fq2
  | [s0, s1] =>
    match parse_field_str_inner_unsigned p s0 with
    | .error e => .error e
    | .ok c0 =>
      match parse_field_str_inner_unsigned p s1 with
      | .error e => .error e
      | .ok c1 => .ok (c0, c1)
  | _ => .error .expectedQuadExt

/-- `cubic_extension_field_from_vec`: exactly three quadratic-extension
pairs. -/
def cubic_extension_field_from_vec (p : Nat) :
    List (List (List Char)) → Except SerdeErr Fq6
  | [s0, s1, s2] =>
    match quadratic_extension_field_from_vec p s0 with
    | .error e => .error e
    | .ok c0 =>
      match quadratic_extension_field_from_vec p s1 with
      | .error e => .error e
      | .ok c1 =>
        match quadratic_extension_field_from_vec p s2 with
        | .error e => .error e
        | .ok c2 => .ok (c0, c1, c2)
  | _ => .error .expectedCubicExt

/-- `GtVisitor::visit_seq`: reads the first two nested arrays from the
stream, requires each to have three quadratic pairs, and builds the
quadratic tower element; elements of the stream beyond the second are
never read. -/
def gt_visit_seq (p : Nat) :
    List (List (List (List Char))) → Except DeError Fq12
  | [] => .error .gtMissingElement
  | [_] => .error .gtMissingElement
  | x :: y :: _ =>
    if x.length ≠ 3 ∨ y.length ≠ 3 then .error .gtNeedThreeForCubic
    else
      match cubic_extension_field_from_vec p x with
      | .error e => .error (.custom e)
      | .ok c0 =>
        match cubic_extension_field_from_vec p y with
        | .error e => .error (.custom e)
        | .ok c1 => .ok (c0, c1)

example : parse_field_str_inner true 11 ['7'] = .ok 7 := by rfl
example : parse_field_str_inner false 11 ['-', '1'] = .ok 10 := by rfl
example : parse_field_str_inner true 11 ['-', '1'] = .error .negativeRejected := by rfl
example : parse_field_str_inner true 11 ['0', '0'] = .error .nonCanonicalZero := by rfl
example : parse_field_str_inner true 11 ['-', '0'] = .error .negativeRejected := by rfl
example : parse_field_str_inner false 11 ['-', '0'] = .error .nonCanonicalZero := by rfl
example : parse_field_str_inner true 11 ['0', '1', '2', '3'] = .error .leadingZero := by rfl
example : parse_field_str_inner false 11 ['-', '0', '1'] = .error .negativeLeadingZero := by rfl
example : parse_field_str_inner true 11 ['1', '1'] = .error .outOfRange := by rfl
example : parse_field_str_inner false 11 ['-', '1', '1'] = .ok 0 := by rfl
example : parse_field_str_inner false 11 ['-', '1', '2'] = .error .outOfRange := by rfl
example : parse_field_str_inner true 11 [] = .error .invalidData := by rfl
example : natRepr 120 = ['1', '2', '0'] := by rfl
example : natRepr 0 = ['0'] := by rfl

/-! ### Facts about the canonical decimal printer -/

theorem lt_ten_pow_self (n : Nat) : n < 10 ^ n := by
  induction n with
  | zero => simp
  | succ k ih =>
    rw [pow_succ]
    omega

theorem natDecimalGo_append (fuel : Nat) : ∀ (n : Nat) (acc : List Char),
    n < 10 ^ fuel →
    natDecimalGo fuel n acc = natDecimalGo fuel n [] ++ acc := by
  induction fuel with
  | zero =>
    intro n acc _
    simp [natDecimalGo]
  | succ f ih =>
    intro n acc h
    by_cases h10 : n < 10
    · simp [natDecimalGo, h10]
    · have hdiv : n / 10 < 10 ^ f := by
        rw [Nat.div_lt_iff_lt_mul (by norm_num)]
        calc n < 10 ^ (f + 1) := h
        _ = 10 ^ f * 10 := by rw [pow_succ]
      simp only [natDecimalGo, if_neg h10]
      rw [ih (n / 10) (digitChar (n % 10) :: acc) hdiv,
          ih (n / 10) [digitChar (n % 10)] hdiv]
      simp

theorem natDecimalGo_fuel (f1 : Nat) : ∀ (f2 n : Nat) (acc : List Char),
    n < 10 ^ f1 → n < 10 ^ f2 → 0 < f1 → 0 < f2 →
    natDecimalGo f1 n acc = natDecimalGo f2 n acc := by
  induction f1 with
  | zero =>
    intro f2 n acc _ _ h _
    omega
  | succ f ih =>
    intro f2 n acc h1 h2 _ hf2
    obtain ⟨g, rfl⟩ : ∃ g, f2 = g + 1 := ⟨f2 - 1, by omega⟩
    by_cases h10 : n < 10
    · simp [natDecimalGo, h10]
    · have hf : 0 < f := by
        rcases Nat.eq_zero_or_pos f with hf0 | hf0
        · subst hf0; norm_num at h1; omega
        · exact hf0
      have hg : 0 < g := by
        rcases Nat.eq_zero_or_pos g with hg0 | hg0
        · subst hg0; norm_num at h2; omega
        · exact hg0
      have hd1 : n / 10 < 10 ^ f := by
        rw [Nat.div_lt_iff_lt_mul (by norm_num)]
        calc n < 10 ^ (f + 1) := h1
        _ = 10 ^ f * 10 := by rw [pow_succ]
      have hd2 : n / 10 < 10 ^ g := by
        rw [Nat.div_lt_iff_lt_mul (by norm_num)]
        calc n < 10 ^ (g + 1) := h2
        _ = 10 ^ g * 10 := by rw [pow_succ]
      simp only [natDecimalGo, if_neg h10]
      exact ih g (n / 10) _ hd1 hd2 hf hg

theorem natRepr_small {n : Nat} (h : n < 10) : natRepr n = [digitChar n] := by
  simp [natRepr, natDecimalGo, h]

theorem natRepr_build {n : Nat} (h : 10 ≤ n) :
    natRepr n = natRepr (n / 10) ++ [digitChar (n % 10)] := by
  have hb1 : n / 10 < 10 ^ n :=
    lt_of_le_of_lt (Nat.div_le_self n 10) (lt_ten_pow_self n)
  have hb2 : n / 10 < 10 ^ (n / 10 + 1) := by
    calc n / 10 < 10 ^ (n / 10) := lt_ten_pow_self _
    _ ≤ 10 ^ (n / 10 + 1) := Nat.pow_le_pow_right (by norm_num) (by omega)
  show natDecimalGo (n + 1) n [] =
    natDecimalGo (n / 10 + 1) (n / 10) [] ++ [digitChar (n % 10)]
  simp only [natDecimalGo, if_neg (by omega : ¬ n < 10)]
  rw [natDecimalGo_append n (n / 10) [digitChar (n % 10)] hb1]
  congr 1
  exact natDecimalGo_fuel n (n / 10 + 1) (n / 10) [] hb1 hb2 (by omega) (by omega)

theorem digitVal_digitChar {d : Nat} (h : d < 10) :
    digitVal (digitChar d) = d := by
  interval_cases d <;> rfl

theorem digitChar_isDigit {d : Nat} (h : d < 10) :
    (digitChar d).isDigit = true := by
  interval_cases d <;> rfl

theorem digitChar_beq_plus {d : Nat} (h : d < 10) :
    (digitChar d == '+') = false := by
  interval_cases d <;> rfl

theorem digitChar_beq_minus {d : Nat} (h : d < 10) :
    (digitChar d == '-') = false := by
  interval_cases d <;> rfl

theorem digitChar_beq_zero {d : Nat} (h : d < 10) (h0 : 0 < d) :
    (digitChar d == '0') = false := by
  interval_cases d <;> rfl

theorem digitsToNat_snoc (l : List Char) (c : Char) :
    digitsToNat (l ++ [c]) = digitsToNat l * 10 + digitVal c := by
  simp [digitsToNat, List.foldl_append]

theorem digitsToNat_natRepr (n : Nat) : digitsToNat (natRepr n) = n := by
  induction n using Nat.strong_induction_on with
  | _ n ih =>
    by_cases h : n < 10
    · rw [natRepr_small h]
      simp [digitsToNat, digitVal_digitChar h]
    · rw [natRepr_build (by omega), digitsToNat_snoc,
          ih (n / 10) (Nat.div_lt_self (by omega) (by norm_num)),
          digitVal_digitChar (Nat.mod_lt n (by norm_num))]
      omega

theorem natRepr_head (n : Nat) :
    ∃ d t, natRepr n = digitChar d :: t ∧ d < 10 ∧ (n ≠ 0 → 0 < d) := by
  induction n using Nat.strong_induction_on with
  | _ n ih =>
    by_cases h : n < 10
    · exact ⟨n, [], by rw [natRepr_small h], h, fun hn => by omega⟩
    · obtain ⟨d, t, hv, hd, hd0⟩ :=
        ih (n / 10) (Nat.div_lt_self (by omega) (by norm_num))
      refine ⟨d, t ++ [digitChar (n % 10)], ?_, hd, fun _ => hd0 (by omega)⟩
      rw [natRepr_build (by omega), hv]
      simp

theorem natRepr_mem (n : Nat) :
    ∀ c ∈ natRepr n, ∃ d, d < 10 ∧ c = digitChar d := by
  induction n using Nat.strong_induction_on with
  | _ n ih =>
    intro c hc
    by_cases h : n < 10
    · rw [natRepr_small h] at hc
      simp at hc
      exact ⟨n, h, hc⟩
    · rw [natRepr_build (by omega)] at hc
      rcases List.mem_append.mp hc with hc | hc
      · exact ih (n / 10) (Nat.div_lt_self (by omega) (by norm_num)) c hc
      · simp at hc
        exact ⟨n % 10, Nat.mod_lt n (by norm_num), hc⟩

theorem natRepr_all_isDigit (n : Nat) :
    (natRepr n).all Char.isDigit = true := by
  rw [List.all_eq_true]
  intro c hc
  obtain ⟨d, hd, rfl⟩ := natRepr_mem n c hc
  exact digitChar_isDigit hd

theorem any_not_isDigit_of_all {l : List Char}
    (h : l.all Char.isDigit = true) :
    (l.any fun c => !c.isDigit) = false := by
  rw [List.all_eq_true] at h
  rw [Bool.eq_false_iff]
  intro hany
  rw [List.any_eq_true] at hany
  obtain ⟨c, hc, hcd⟩ := hany
  rw [h c hc] at hcd
  simp at hcd

theorem natRepr_any_not_isDigit (n : Nat) :
    ((natRepr n).any fun c => !c.isDigit) = false :=
  any_not_isDigit_of_all (natRepr_all_isDigit n)

theorem startsWithChar_natRepr_plus (n : Nat) :
    startsWithChar '+' (natRepr n) = false := by
  obtain ⟨d, t, hv, hd, _⟩ := natRepr_head n
  rw [hv]
  simp [startsWithChar, digitChar_beq_plus hd]

theorem startsWithChar_natRepr_minus (n : Nat) :
    startsWithChar '-' (natRepr n) = false := by
  obtain ⟨d, t, hv, hd, _⟩ := natRepr_head n
  rw [hv]
  simp [startsWithChar, digitChar_beq_minus hd]

theorem startsWithChar_natRepr_zero {n : Nat} (hn : n ≠ 0) :
    startsWithChar '0' (natRepr n) = false := by
  obtain ⟨d, t, hv, hd, hd0⟩ := natRepr_head n
  rw [hv]
  simp [startsWithChar, digitChar_beq_zero hd (hd0 hn)]

theorem natRepr_ne_nil (n : Nat) : natRepr n ≠ [] := by
  obtain ⟨d, t, hv, _, _⟩ := natRepr_head n
  rw [hv]
  simp

theorem bigIntFromStr_natRepr (n : Nat) :
    bigIntFromStr (natRepr n) = some (n : Int) := by
  unfold bigIntFromStr
  rw [if_neg (by simp [startsWithChar_natRepr_minus n]),
      if_neg (by simp [startsWithChar_natRepr_plus n]),
      if_pos ⟨natRepr_ne_nil n, natRepr_all_isDigit n⟩,
      digitsToNat_natRepr]

/-! ### Behaviour of the parser on canonical decimal strings -/

theorem parse_natRepr (u : Bool) (p n : Nat) :
    parse_field_str_inner u p (natRepr n) =
      if n < p then .ok n else .error .outOfRange := by
  by_cases hn : n = 0
  · subst hn
    have hz : natRepr 0 = ['0'] := rfl
    rw [hz]
    rcases Nat.eq_zero_or_pos p with rfl | hp
    · cases u <;> rfl
    · have hple : ¬ ((p : Int) ≤ 0) := by exact_mod_cast Nat.not_le.mpr hp
      rw [if_pos hp]
      cases u <;>
        simp [parse_field_str_inner, bigIntFromStr, startsWithChar, stripNeg,
          digitsToNat, digitVal, hple]
  · have h5 : ¬ ((n : Int) = 0 ∧ natRepr n ≠ ['0']) := by
      rintro ⟨h, -⟩
      exact hn (by exact_mod_cast h)
    have h6 : ¬ (startsWithChar '0' (natRepr n) = true ∧ (n : Int) ≠ 0) := by
      rintro ⟨h, -⟩
      rw [startsWithChar_natRepr_zero hn] at h
      exact Bool.false_ne_true h
    have h7 : ¬ ((n : Int) < 0) := by omega
    unfold parse_field_str_inner
    rw [if_neg (by simp [startsWithChar_natRepr_plus n]),
        if_neg (by simp [startsWithChar_natRepr_minus n]),
        if_neg (by cases u <;> simp [stripNeg, startsWithChar_natRepr_minus n,
          natRepr_any_not_isDigit n]),
        bigIntFromStr_natRepr n]
    simp only []
    rw [if_neg h5, if_neg h6,
        if_neg (by rintro ⟨-, h⟩; exact h7 h),
        if_neg (by rintro ⟨-, h⟩; exact h7 h)]
    rcases Nat.lt_or_ge n p with h | h
    · rw [if_neg (by exact_mod_cast Nat.not_le.mpr h), if_pos h]
      simp
    · rw [if_pos (by exact_mod_cast h), if_neg (Nat.not_lt.mpr h)]

theorem parse_serialize_f (u : Bool) {p f : Nat} (hf : f < p) :
    parse_field_str_inner u p (serialize_f f) = .ok f := by
  rw [serialize_f, parse_natRepr, if_pos hf]

theorem parse_unsigned_neg (p : Nat) (rest : List Char) :
    parse_field_str_inner true p ('-' :: rest) = .error .negativeRejected := by
  unfold parse_field_str_inner
  rw [if_neg (by simp [startsWithChar]), if_pos ⟨rfl, by simp [startsWithChar]⟩]

theorem parse_neg_natRepr (p : Nat) {v : Nat} (hv : 1 ≤ v) :
    parse_field_str_inner false p ('-' :: natRepr v) =
      if v ≤ p then .ok (p - v) else .error .outOfRange := by
  obtain ⟨d, t, hvh, hd, hd0⟩ := natRepr_head v
  have hbig : bigIntFromStr ('-' :: natRepr v) = some (-(v : Int)) := by
    unfold bigIntFromStr
    rw [if_pos (by simp [startsWithChar])]
    simp only [List.tail_cons]
    rw [if_pos ⟨natRepr_ne_nil v, natRepr_all_isDigit v⟩, digitsToNat_natRepr]
  have hnum0 : ¬ (-(v : Int) = 0) := by omega
  unfold parse_field_str_inner
  rw [if_neg (by simp [startsWithChar]),
      if_neg (by simp),
      if_neg (by simp [stripNeg, startsWithChar, natRepr_any_not_isDigit v]),
      hbig]
  simp only []
  rw [if_neg (by rintro ⟨h, -⟩; exact hnum0 h),
      if_neg (by rintro ⟨h, -⟩; simp [startsWithChar] at h),
      if_pos ⟨trivial, by omega⟩,
      if_neg (by
        rintro ⟨-, h⟩
        rw [startsWithNegZero] at h
        simp only [List.tail_cons] at h
        rw [startsWithChar_natRepr_zero (by omega)] at h
        simp at h)]
  rcases le_or_lt v p with h | h
  · rw [if_neg (by omega), if_pos h]
    congr 1
    omega
  · rw [if_pos (by omega), if_neg (Nat.not_le.mpr h)]

theorem parse_zero_string (u : Bool) (p : Nat) (v : List Char)
    (hne : v ≠ ['0']) (hz : bigIntFromStr v = some 0) :
    parse_field_str_inner u p v =
      if startsWithChar '+' v = true then .error .leadingPlusSign
      else if u = true ∧ startsWithChar '-' v = true then .error .negativeRejected
      else .error .nonCanonicalZero := by
  by_cases h1 : startsWithChar '+' v = true
  · rw [if_pos h1]
    unfold parse_field_str_inner
    rw [if_pos h1]
  · rw [if_neg h1]
    by_cases h2 : u = true ∧ startsWithChar '-' v = true
    · rw [if_pos h2]
      unfold parse_field_str_inner
      rw [if_neg h1, if_pos h2]
    · rw [if_neg h2]
      have hdig : (if u then v.any (fun c => !c.isDigit)
          else (stripNeg v).any (fun c => !c.isDigit)) = false := by
        by_cases hm : startsWithChar '-' v = true
        · have hu : u = false := by
            cases u
            · rfl
            · exact absurd ⟨rfl, hm⟩ h2
          subst hu
          unfold bigIntFromStr at hz
          rw [if_pos hm] at hz
          by_cases hc : v.tail ≠ [] ∧ v.tail.all Char.isDigit = true
          · simp only [Bool.if_false_left, Bool.if_false_right, if_false,
              Bool.false_eq_true, stripNeg, hm, if_true]
            exact any_not_isDigit_of_all hc.2
          · rw [if_neg hc] at hz
            exact absurd hz (by simp)
        · unfold bigIntFromStr at hz
          rw [if_neg hm, if_neg h1] at hz
          by_cases hc : v ≠ [] ∧ v.all Char.isDigit = true
          · have hany := any_not_isDigit_of_all hc.2
            cases u
            · simp only [if_false, stripNeg, hm, Bool.false_eq_true]
              simpa [stripNeg, hm] using hany
            · simpa using hany
          · rw [if_neg hc] at hz
            exact absurd hz (by simp)
      unfold parse_field_str_inner
      rw [if_neg h1, if_neg h2,
          if_neg (by rw [hdig]; exact Bool.false_ne_true), hz]
      simp only []
      rw [if_pos ⟨trivial, hne⟩]

theorem parse_unsigned_digit {p d : Nat} (hd : d < 10) (hdp : d < p) :
    parse_field_str_inner_unsigned p [digitChar d] = .ok d := by
  show parse_field_str_inner true p [digitChar d] = .ok d
  have h := parse_natRepr true p d
  rw [natRepr_small hd] at h
  rw [h, if_pos hdp]

/-! ### The claims -/

/-- Claim C3: in signed decode mode the string `"-1"` and the decimal
string of `p - 1` decode to the same field element `p - 1` (a negative
value `v` is reinterpreted as `p - v`); in unsigned decode mode any
string starting with `'-'`, in particular `"-1"`, fails with the
negative-rejected error. -/
theorem claim_C3 {p : Nat} (hp : 1 < p) :
    parse_field_str_inner false p ['-', '1'] = .ok (p - 1) ∧
    parse_field_str_inner false p (natRepr (p - 1)) = .ok (p - 1) ∧
    ∀ rest : List Char,
      parse_field_str_inner true p ('-' :: rest) = .error .negativeRejected := by
  refine ⟨?_, ?_, fun rest => parse_unsigned_neg p rest⟩
  · have h := parse_neg_natRepr p (v := 1) le_rfl
    rw [show natRepr 1 = ['1'] from rfl] at h
    rw [h, if_pos (by omega)]
  · rw [parse_natRepr, if_pos (by omega)]

theorem claim_C3_witness :
    parse_field_str_inner false 11 ['-', '1'] = .ok 10 ∧
    parse_field_str_inner false 11 (natRepr 10) = .ok 10 ∧
    parse_field_str_inner true 11 ['-', '1'] = .error .negativeRejected := by
  obtain ⟨h1, h2, h3⟩ := claim_C3 (p := 11) (by norm_num)
  exact ⟨h1, h2, h3 ['1']⟩

/-- Claim C4 counterexample: in unsigned mode the string `"-0"` fails
with the negative-rejected error, not with the non-canonical-zero
error that the claim asserts for every mode. -/
theorem claim_C4_counterexample :
    parse_field_str_inner true 11 ['-', '0'] = .error .negativeRejected ∧
    parse_field_str_inner true 11 ['-', '0'] ≠ .error .nonCanonicalZero := by
  refine ⟨rfl, fun h => ?_⟩
  rw [show parse_field_str_inner true 11 ['-', '0'] =
    .error .negativeRejected from rfl] at h
  simp at h

/-- Claim C4 (amended): `"0"` decodes to the additive identity in both
modes; any other string whose numeric value is zero fails in every
mode — with the leading-plus error if it starts with `'+'`, the
negative-rejected error in unsigned mode if it starts with `'-'`, and
the non-canonical-zero error otherwise.  In particular `"-0"` is
negative-rejected in unsigned mode and non-canonical-zero in signed
mode, and `"00"` is non-canonical-zero in both modes. -/
theorem claim_C4 {p : Nat} (hp : 0 < p) :
    (∀ u : Bool, parse_field_str_inner u p ['0'] = .ok 0) ∧
    (∀ (u : Bool) (v : List Char), v ≠ ['0'] → bigIntFromStr v = some 0 →
      parse_field_str_inner u p v =
        if startsWithChar '+' v = true then .error .leadingPlusSign
        else if u = true ∧ startsWithChar '-' v = true then
          .error .negativeRejected
        else .error .nonCanonicalZero) := by
  constructor
  · intro u
    have h := parse_natRepr u p 0
    rw [show natRepr 0 = ['0'] from rfl] at h
    rw [h, if_pos hp]
  · intro u v hne hz
    exact parse_zero_string u p v hne hz

theorem claim_C4_witness :
    parse_field_str_inner true 11 ['0'] = .ok 0 ∧
    parse_field_str_inner false 11 ['0'] = .ok 0 ∧
    parse_field_str_inner false 11 ['-', '0'] = .error .nonCanonicalZero ∧
    parse_field_str_inner true 11 ['0', '0'] = .error .nonCanonicalZero ∧
    parse_field_str_inner false 11 ['0', '0'] = .error .nonCanonicalZero := by
  obtain ⟨h1, h2⟩ := claim_C4 (p := 11) (by norm_num)
  refine ⟨h1 true, h1 false, ?_, ?_, ?_⟩
  · have h := h2 false ['-', '0'] (by decide) (by rfl)
    rwa [if_neg (by decide), if_neg (by decide)] at h
  · have h := h2 true ['0', '0'] (by decide) (by rfl)
    rwa [if_neg (by decide), if_neg (by decide)] at h
  · have h := h2 false ['0', '0'] (by decide) (by rfl)
    rwa [if_neg (by decide), if_neg (by decide)] at h

/-- Claim C5: round-trip — for every valid field element `f` (canonical
representative below the modulus `p`), decoding the human-readable
encoding `serialize_f f` yields `f` again, in both unsigned and signed
decode modes; the encoder emits the canonical decimal string of the
representative in `[0, p)`. -/
theorem claim_C5 {p f : Nat} (hf : f < p) :
    parse_field_str_inner true p (serialize_f f) = .ok f ∧
    parse_field_str_inner false p (serialize_f f) = .ok f :=
  ⟨parse_serialize_f true hf, parse_serialize_f false hf⟩

theorem claim_C5_witness :
    parse_field_str_inner true 11 (serialize_f 7) = .ok 7 ∧
    parse_field_str_inner false 11 (serialize_f 7) = .ok 7 :=
  claim_C5 (by norm_num)

/-- Claim C6: the decimal string of the modulus `p` fails with the
out-of-range error in both unsigned and signed modes, while the decimal
string of `p - 1` decodes successfully unsigned and equals the signed
decoding of `"-1"`. -/
theorem claim_C6 {p : Nat} (hp : 1 < p) :
    (∀ u : Bool, parse_field_str_inner u p (natRepr p) = .error .outOfRange) ∧
    parse_field_str_inner true p (natRepr (p - 1)) = .ok (p - 1) ∧
    parse_field_str_inner false p ['-', '1'] = .ok (p - 1) := by
  refine ⟨fun u => ?_, ?_, ?_⟩
  · rw [parse_natRepr, if_neg (by omega)]
  · rw [parse_natRepr, if_pos (by omega)]
  · have h := parse_neg_natRepr p (v := 1) le_rfl
    rw [show natRepr 1 = ['1'] from rfl] at h
    rw [h, if_pos (by omega)]

theorem claim_C6_witness :
    parse_field_str_inner true 11 (natRepr 11) = .error .outOfRange ∧
    parse_field_str_inner false 11 (natRepr 11) = .error .outOfRange ∧
    parse_field_str_inner true 11 (natRepr 10) = .ok 10 ∧
    parse_field_str_inner false 11 ['-', '1'] = .ok 10 := by
  obtain ⟨h1, h2, h3⟩ := claim_C6 (p := 11) (by norm_num)
  exact ⟨h1 true, h1 false, h2, h3⟩

/-- Claim C7: signed decode maps the decimal string of `-v` for every
`v` with `1 ≤ v ≤ p` to the field element `p - v`; in particular the
string of `-p` decodes successfully to zero, while the string of
`-(p + 1)` fails with the out-of-range error.  (For `v = 0` the decimal
string of `-0` is `"0"`, which decodes to `0 = p - 0` modulo `p`.) -/
theorem claim_C7 {p : Nat} (hp : 1 < p) :
    parse_field_str_inner false p ('-' :: natRepr p) = .ok 0 ∧
    parse_field_str_inner false p ('-' :: natRepr (p + 1)) =
      .error .outOfRange ∧
    ∀ v : Nat, 1 ≤ v → v ≤ p →
      parse_field_str_inner false p ('-' :: natRepr v) = .ok (p - v) := by
  refine ⟨?_, ?_, fun v h1 h2 => ?_⟩
  · rw [parse_neg_natRepr p (by omega), if_pos le_rfl, Nat.sub_self]
  · rw [parse_neg_natRepr p (by omega), if_neg (by omega)]
  · rw [parse_neg_natRepr p h1, if_pos h2]

theorem claim_C7_witness :
    parse_field_str_inner false 11 ('-' :: natRepr 11) = .ok 0 ∧
    parse_field_str_inner false 11 ('-' :: natRepr 12) = .error .outOfRange ∧
    parse_field_str_inner false 11 ('-' :: natRepr 4) = .ok 7 := by
  obtain ⟨h1, h2, h3⟩ := claim_C7 (p := 11) (by norm_num)
  exact ⟨h1, h2, h3 4 (by norm_num) (by norm_num)⟩

/-- A concrete demonstration curve over the 13-element field with the
short-Weierstrass equation `y ^ 2 = x ^ 3 + 3` and a subgroup predicate
that accepts nothing (so that finite on-curve points exercise the
subgroup-violation path). -/
def demoG1 : G1Config where
  p := 13
  inv := fun _ => 0
  isOnCurve := fun x y => (y * y) % 13 == (x * x * x + 3) % 13
  inSubgroup := fun _ _ => false

/-- A concrete demonstration configuration for a curve over a quadratic
extension of the 13-element field. -/
def demoG2 : G2Config where
  p := 13
  invQ := fun q => q
  mulQ := fun a _ => a
  isOnCurve := fun _ _ => false
  inSubgroup := fun _ _ => false

/-- Claim C1: for every well-formed G1 projective coordinate triple
whose resulting affine point is finite, if the point fails the
curve-equation test then checked decode fails with the curve-violation
error while unchecked decode succeeds, returning the invalid in-memory
point as-is; and if the point passes the curve test but fails the
subgroup test, checked decode fails with the subgroup-violation
error. -/
theorem claim_C1 (c : G1Config) (x y z : List Char) (fx fy fz px py : Nat)
    (hx : parse_field_str_inner_unsigned c.p x = .ok fx)
    (hy : parse_field_str_inner_unsigned c.p y = .ok fy)
    (hz : parse_field_str_inner_unsigned c.p z = .ok fz)
    (haff : intoAffineG1 c fx fy fz = .point px py) :
    (c.isOnCurve px py = false →
      g1_from_strings_projective true c x y z = .error .notConCurveG1 ∧
      g1_from_strings_projective false c x y z = .ok (.point px py)) ∧
    (c.isOnCurve px py = true → c.inSubgroup px py = false →
      g1_from_strings_projective true c x y z =
        .error .notInCorrectSubgroupG1) := by
  refine ⟨fun hcurve => ⟨?_, ?_⟩, fun hcurve hsub => ?_⟩
  · simp [g1_from_strings_projective, hx, hy, hz, haff, hcurve]
  · simp [g1_from_strings_projective, hx, hy, hz, haff]
  · simp [g1_from_strings_projective, hx, hy, hz, haff, hcurve, hsub]

theorem claim_C1_witness :
    g1_from_strings_projective true demoG1 ['2'] ['3'] ['1'] =
      .error .notConCurveG1 ∧
    g1_from_strings_projective false demoG1 ['2'] ['3'] ['1'] =
      .ok (.point 2 3) ∧
    g1_from_strings_projective true demoG1 ['1'] ['2'] ['1'] =
      .error .notInCorrectSubgroupG1 := by
  have h1 := claim_C1 demoG1 ['2'] ['3'] ['1'] 2 3 1 2 3 rfl rfl rfl rfl
  have h2 := claim_C1 demoG1 ['1'] ['2'] ['1'] 1 2 1 1 2 rfl rfl rfl rfl
  exact ⟨(h1.1 rfl).1, (h1.1 rfl).2, h2.2 rfl rfl⟩

/-- Claim C2: the fixed infinity triple (`x = "0"`, `y = "1"`,
`z = "0"` for G1, and its quadratic-extension analogue for G2) decodes
to the identity point in checked mode — indeed in both modes — for
every curve configuration, regardless of the curve-equation and
subgroup predicates: the checks are never invoked on the identity. -/
theorem claim_C2 :
    (∀ c : G1Config, 1 < c.p → ∀ check : Bool,
      g1_from_strings_projective check c ['0'] ['1'] ['0'] = .ok .inf) ∧
    (∀ c : G2Config, 1 < c.p → ∀ check : Bool,
      g2_from_strings_projective check c
        ['0'] ['0'] ['1'] ['0'] ['0'] ['0'] = .ok .inf) := by
  constructor
  · intro c hp check
    have h0 : parse_field_str_inner_unsigned c.p ['0'] = .ok 0 :=
      parse_unsigned_digit (d := 0) (by norm_num) (by omega)
    have h1 : parse_field_str_inner_unsigned c.p ['1'] = .ok 1 :=
      parse_unsigned_digit (d := 1) (by norm_num) (by omega)
    simp [g1_from_strings_projective, h0, h1, intoAffineG1]
  · intro c hp check
    have h0 : parse_field_str_inner_unsigned c.p ['0'] = .ok 0 :=
      parse_unsigned_digit (d := 0) (by norm_num) (by omega)
    have h1 : parse_field_str_inner_unsigned c.p ['1'] = .ok 1 :=
      parse_unsigned_digit (d := 1) (by norm_num) (by omega)
    simp [g2_from_strings_projective, h0, h1, intoAffineG2]

theorem claim_C2_witness :
    g1_from_strings_projective true demoG1 ['0'] ['1'] ['0'] = .ok .inf ∧
    g2_from_strings_projective true demoG2
      ['0'] ['0'] ['1'] ['0'] ['0'] ['0'] = .ok .inf := by
  obtain ⟨h1, h2⟩ := claim_C2
  exact ⟨h1 demoG1 (by decide) true, h2 demoG2 (by decide) true⟩

/-- Claim C8: the G1 visitor requires exactly three coordinate strings —
fewer yield the missing-coordinate errors for x, y, z respectively, a
present fourth element yields the invalid-length (trailing element)
error — and every coordinate is parsed unsigned only, so a
`'-'`-prefixed coordinate string in any position is rejected with the
negative-rejected error. -/
theorem claim_C8 (check : Bool) (c : G1Config) :
    g1_visit_seq check c [] = .error .missingG1X ∧
    (∀ a, g1_visit_seq check c [a] = .error .missingG1Y) ∧
    (∀ a b, g1_visit_seq check c [a, b] = .error .missingG1Z) ∧
    (∀ a b d e rest, g1_visit_seq check c (a :: b :: d :: e :: rest) =
      .error (.invalidLength 4)) ∧
    (∀ x y z : List Char,
      g1_visit_seq check c [('-' :: x), y, z] =
        .error (.custom .negativeRejected)) ∧
    (∀ (x y z : List Char) (fx : Nat),
      parse_field_str_inner_unsigned c.p x = .ok fx →
      g1_visit_seq check c [x, ('-' :: y), z] =
        .error (.custom .negativeRejected)) ∧
    (∀ (x y z : List Char) (fx fy : Nat),
      parse_field_str_inner_unsigned c.p x = .ok fx →
      parse_field_str_inner_unsigned c.p y = .ok fy →
      g1_visit_seq check c [x, y, ('-' :: z)] =
        .error (.custom .negativeRejected)) := by
  refine ⟨rfl, fun a => rfl, fun a b => rfl, fun a b d e rest => rfl,
    ?_, ?_, ?_⟩
  · intro x y z
    have h : parse_field_str_inner_unsigned c.p ('-' :: x) =
        .error .negativeRejected := parse_unsigned_neg c.p x
    simp [g1_visit_seq, g1_from_strings_projective, h]
  · intro x y z fx hx
    have h : parse_field_str_inner_unsigned c.p ('-' :: y) =
        .error .negativeRejected := parse_unsigned_neg c.p y
    simp [g1_visit_seq, g1_from_strings_projective, hx, h]
  · intro x y z fx fy hx hy
    have h : parse_field_str_inner_unsigned c.p ('-' :: z) =
        .error .negativeRejected := parse_unsigned_neg c.p z
    simp [g1_visit_seq, g1_from_strings_projective, hx, hy, h]

theorem claim_C8_witness :
    g1_visit_seq true demoG1 [] = .error .missingG1X ∧
    g1_visit_seq true demoG1 [['1']] = .error .missingG1Y ∧
    g1_visit_seq true demoG1 [['1'], ['2']] = .error .missingG1Z ∧
    g1_visit_seq true demoG1 [['1'], ['2'], ['1'], ['0']] =
      .error (.invalidLength 4) ∧
    g1_visit_seq true demoG1 [['-', '1'], ['2'], ['1']] =
      .error (.custom .negativeRejected) ∧
    g1_visit_seq true demoG1 [['1'], ['-', '2'], ['1']] =
      .error (.custom .negativeRejected) ∧
    g1_visit_seq true demoG1 [['1'], ['2'], ['-', '1']] =
      .error (.custom .negativeRejected) := by
  obtain ⟨h1, h2, h3, h4, h5, h6, h7⟩ := claim_C8 true demoG1
  exact ⟨h1, h2 ['1'], h3 ['1'] ['2'], h4 ['1'] ['2'] ['1'] ['0'] [],
    h5 ['1'] ['2'] ['1'], h6 ['1'] ['2'] ['1'] 1 rfl,
    h7 ['1'] ['2'] ['1'] 1 2 rfl rfl⟩

/-- Claim C9 counterexample: a target-group wire value whose outer
array has three (rather than two) elements is accepted by the decoder —
the visitor reads the first two nested arrays and never inspects the
rest of the stream — contradicting the claim that any deviation from
the outer dimension fails with a structural error. -/
theorem claim_C9_counterexample :
    gt_visit_seq 11
      [[[['1'], ['0']], [['0'], ['0']], [['0'], ['0']]],
       [[['1'], ['0']], [['0'], ['0']], [['0'], ['0']]],
       [[['1'], ['0']], [['0'], ['0']], [['0'], ['0']]]] =
      .ok (((1, 0), (0, 0), (0, 0)), ((1, 0), (0, 0), (0, 0))) := rfl

/-- Claim C9 (amended): the target-group decoder fails with a
missing-element structural error when the outer array has fewer than
two elements, but outer elements beyond the second are ignored rather
than rejected; an inner array whose length is not 3 fails with the
cubic-extension shape error; a leaf pair whose length is not 2 fails
with the quadratic-extension shape error; and each leaf string is
parsed unsigned only, so a `'-'`-prefixed leaf is rejected with the
negative-rejected error. -/
theorem claim_C9 (p : Nat) :
    gt_visit_seq p [] = .error .gtMissingElement ∧
    (∀ a, gt_visit_seq p [a] = .error .gtMissingElement) ∧
    (∀ x y rest, gt_visit_seq p (x :: y :: rest) = gt_visit_seq p [x, y]) ∧
    (∀ x y rest, (x.length ≠ 3 ∨ y.length ≠ 3) →
      gt_visit_seq p (x :: y :: rest) = .error .gtNeedThreeForCubic) ∧
    (∀ ss, ss.length ≠ 2 →
      quadratic_extension_field_from_vec p ss = .error .expectedQuadExt) ∧
    (∀ s0 s1 : List Char,
      quadratic_extension_field_from_vec p [('-' :: s0), s1] =
        .error .negativeRejected) := by
  refine ⟨rfl, fun a => rfl, fun x y rest => rfl, ?_, ?_, ?_⟩
  · intro x y rest h
    simp only [gt_visit_seq]
    rw [if_pos h]
  · intro ss h
    rcases ss with _ | ⟨a, _ | ⟨b, _ | ⟨c, t⟩⟩⟩
    · rfl
    · rfl
    · exact absurd rfl h
    · rfl
  · intro s0 s1
    have h : parse_field_str_inner_unsigned p ('-' :: s0) =
        .error .negativeRejected := parse_unsigned_neg p s0
    simp [quadratic_extension_field_from_vec, h]

theorem claim_C9_witness :
    gt_visit_seq 11 [] = .error .gtMissingElement ∧
    gt_visit_seq 11 [[[['1'], ['0']], [['0'], ['0']], [['0'], ['0']]]] =
      .error .gtMissingElement ∧
    gt_visit_seq 11
      [[[['1'], ['0']], [['0'], ['0']]],
       [[['1'], ['0']], [['0'], ['0']], [['0'], ['0']]]] =
      .error .gtNeedThreeForCubic ∧
    quadratic_extension_field_from_vec 11 [['1']] =
      .error .expectedQuadExt ∧
    quadratic_extension_field_from_vec 11 [['-', '1'], ['0']] =
      .error .negativeRejected := by
  obtain ⟨h1, h2, h3, h4, h5, h6⟩ := claim_C9 11
  exact ⟨h1, h2 _, h4 _ _ [] (Or.inl (by decide)), h5 [['1']] (by decide),
    h6 ['1'] ['0']⟩

/-- Claim C10: every G1 (and G2) projective triple whose z coordinate
string parses to the zero field element decodes to the identity point
in both checked and unchecked modes, regardless of the supplied x and y
values — e.g. `["5","7","0"]` decodes to infinity — while the encoder
emits only the single canonical sentinel triple `["0","1","0"]` for
infinity, so the set of infinity encodings accepted on decode strictly
exceeds the sentinel emitted on encode. -/
theorem claim_C10 :
    (∀ (check : Bool) (c : G1Config) (x y z : List Char) (fx fy : Nat),
      parse_field_str_inner_unsigned c.p x = .ok fx →
      parse_field_str_inner_unsigned c.p y = .ok fy →
      parse_field_str_inner_unsigned c.p z = .ok 0 →
      g1_from_strings_projective check c x y z = .ok .inf) ∧
    (∀ (check : Bool) (c : G2Config) (x0 x1 y0 y1 z0 z1 : List Char)
        (a0 a1 b0 b1 : Nat),
      parse_field_str_inner_unsigned c.p x0 = .ok a0 →
      parse_field_str_inner_unsigned c.p x1 = .ok a1 →
      parse_field_str_inner_unsigned c.p y0 = .ok b0 →
      parse_field_str_inner_unsigned c.p y1 = .ok b1 →
      parse_field_str_inner_unsigned c.p z0 = .ok 0 →
      parse_field_str_inner_unsigned c.p z1 = .ok 0 →
      g2_from_strings_projective check c x0 x1 y0 y1 z0 z1 = .ok .inf) ∧
    g1_to_strings_projective .inf = [['0'], ['1'], ['0']] ∧
    (∀ (check : Bool) (c : G1Config), 7 < c.p →
      g1_from_strings_projective check c ['5'] ['7'] ['0'] = .ok .inf ∧
      [['5'], ['7'], ['0']] ≠ g1_to_strings_projective .inf) := by
  have hG1 : ∀ (check : Bool) (c : G1Config) (x y z : List Char)
      (fx fy : Nat),
      parse_field_str_inner_unsigned c.p x = .ok fx →
      parse_field_str_inner_unsigned c.p y = .ok fy →
      parse_field_str_inner_unsigned c.p z = .ok 0 →
      g1_from_strings_projective check c x y z = .ok .inf := by
    intro check c x y z fx fy hx hy hz
    simp [g1_from_strings_projective, hx, hy, hz, intoAffineG1]
  refine ⟨hG1, ?_, rfl, ?_⟩
  · intro check c x0 x1 y0 y1 z0 z1 a0 a1 b0 b1 hx0 hx1 hy0 hy1 hz0 hz1
    simp [g2_from_strings_projective, hx0, hx1, hy0, hy1, hz0, hz1,
      intoAffineG2]
  · intro check c hp
    have h5 : parse_field_str_inner_unsigned c.p ['5'] = .ok 5 :=
      parse_unsigned_digit (d := 5) (by norm_num) (by omega)
    have h7 : parse_field_str_inner_unsigned c.p ['7'] = .ok 7 :=
      parse_unsigned_digit (d := 7) (by norm_num) (by omega)
    have h0 : parse_field_str_inner_unsigned c.p ['0'] = .ok 0 :=
      parse_unsigned_digit (d := 0) (by norm_num) (by omega)
    exact ⟨hG1 check c _ _ _ 5 7 h5 h7 h0, by decide⟩

theorem claim_C10_witness :
    g1_from_strings_projective true demoG1 ['5'] ['7'] ['0'] = .ok .inf ∧
    g2_from_strings_projective true demoG2
      ['5'] ['7'] ['1'] ['2'] ['0'] ['0'] = .ok .inf ∧
    [['5'], ['7'], ['0']] ≠ g1_to_strings_projective .inf := by
  obtain ⟨hG1, hG2, henc, hex⟩ := claim_C10
  exact ⟨(hex true demoG1 (by decide)).1,
    hG2 true demoG2 ['5'] ['7'] ['1'] ['2'] ['0'] ['0'] 5 7 1 2
      rfl rfl rfl rfl rfl rfl,
    (hex true demoG1 (by decide)).2⟩
